import Mathlib

/-!
Verification of the `nnff-training` tutorial workflow (AMPtorch training
notebooks).  The notebooks are glue scripts: they build atomic-structure
records, slice a stored trajectory, hand everything to an external trainer,
and reduce true/predicted energy sequences to MSE/MAE numbers with numpy.
This file gives a shallow embedding of those concrete numeric reductions and
record constructions and proves the testable properties stated in the
repository specification.

Energies are embedded as rationals (exact field arithmetic standing in for
the floating-point numerics); geometry, which involves `sin`/`cos` of the
fixed angle `0.65`, is embedded over the reals.
-/

namespace NNFF

/-! ## Energy error reductions (cell `potential-kingston`)

The notebooks compute
`np.mean((true_energies - pred_energies) ** 2)` and
`np.mean(np.abs(true_energies - pred_energies))`.
`np.mean` of an empty array is undefined (numpy yields NaN with a
RuntimeWarning); we embed it as an `Option`, returning `none` on the empty
list and the sum divided by the length otherwise. -/

/-- Embedding of `np.mean` on a one-dimensional array: undefined (`none`)
on the empty array, otherwise the sum of the entries divided by the count. -/
def npMean (xs : List ℚ) : Option ℚ :=
  if xs.isEmpty then none else some (xs.sum / xs.length)

/-- Embedding of `np.mean((true_energies - pred_energies) ** 2)`:
elementwise difference, elementwise square, then `np.mean`. -/
def energyMSE (T P : List ℚ) : Option ℚ :=
  npMean (List.zipWith (fun t p => (t - p) ^ 2) T P)

/-- Embedding of `np.mean(np.abs(true_energies - pred_energies))`:
elementwise difference, elementwise absolute value, then `np.mean`. -/
def energyMAE (T P : List ℚ) : Option ℚ :=
  npMean (List.zipWith (fun t p => |t - p|) T P)

/-- Reference definition, written from the specification text: the mean of
`(T_i - P_i)^2` over `i = 0..N-1` where `N` is the length of `T`. -/
def specMSE (T P : List ℚ) : ℚ :=
  (((List.range T.length).map fun i => (T.getD i 0 - P.getD i 0) ^ 2).sum) /
    T.length

/-- Reference definition, written from the specification text: the mean of
`|T_i - P_i|` over `i = 0..N-1` where `N` is the length of `T`. -/
def specMAE (T P : List ℚ) : ℚ :=
  (((List.range T.length).map fun i => |T.getD i 0 - P.getD i 0|).sum) /
    T.length

/-! ## Atomic structure records and the workflow operations on them

An atomic structure record carries a cell (three lengths, as set by
`set_cell([10, 10, 10])`), periodic-boundary flags, an ordered symbol
sequence, positions (3-vectors), optional stored energy and force labels,
and an optional attached calculator reference.  Calculators themselves
(EMT, the fitted AMPtorch model, the trajectory's single-point data) are
external library objects; we embed only a reference tag plus an abstract
semantics parameter where a claim needs the lazily computed energy. -/

/-- Tag for the calculator attached to a structure: `emt` for
`ase.calculators.emt.EMT()`, `ampTorch` for `AMPtorch(trainer)`, and
`singlePoint` for the stored-results calculator carried by deserialized
trajectory entries. -/
inductive CalcKind where
  | emt : CalcKind
  | ampTorch : CalcKind
  | singlePoint : CalcKind

/-- Atomic structure record (the shape of an `ase.Atoms` object as used by
the notebooks). -/
structure AtomsRec where
  cell : ℝ × ℝ × ℝ
  pbc : Bool × Bool × Bool
  symbols : List String
  positions : List (ℝ × ℝ × ℝ)
  energy : Option ℝ
  forces : Option (List (ℝ × ℝ × ℝ))
  calcRef : Option CalcKind

/-- Invariant from the specification: symbols, positions and (when present)
the force matrix all have the same atom count. -/
def wellFormed (s : AtomsRec) : Prop :=
  s.symbols.length = s.positions.length ∧
    ∀ F, s.forces = some F → F.length = s.positions.length

/-- Embedding of `atoms.set_cell([a, b, c])` (no atom scaling). -/
def setCell (s : AtomsRec) (c : ℝ × ℝ × ℝ) : AtomsRec :=
  { s with cell := c }

/-- Embedding of `atoms.set_pbc([...])`. -/
def setPbc (s : AtomsRec) (p : Bool × Bool × Bool) : AtomsRec :=
  { s with pbc := p }

/-- Embedding of `atoms.set_calculator(...)`: replaces the attached
calculator reference and nothing else. -/
def setCalculator (s : AtomsRec) (c : CalcKind) : AtomsRec :=
  { s with calcRef := some c }

/-- Modelled from the spec: `atoms.get_potential_energy()` is external ASE
code; the spec states structures are immutable apart from the attached
calculator reference, which is "used to lazily compute energy/forces".  We
model the call as evaluating an abstract calculator semantics `sem` on the
structure and returning the structure as it stands after the call. -/
def getPotentialEnergy (sem : CalcKind → AtomsRec → ℝ) (s : AtomsRec) :
    Option ℝ × AtomsRec :=
  (s.calcRef.map fun c => sem c s, s)

/-- Wrapping of one coordinate into a periodic cell of length `L`
(fractional coordinate reduced modulo 1). -/
noncomputable def wrapCoord (L c : ℝ) : ℝ :=
  c - L * (⌊c / L⌋ : ℤ)

/-- Embedding of `atoms.wrap(pbc=...)` for the orthogonal diagonal cells
used by the notebooks: each coordinate whose direction is periodic is
wrapped into `[0, cell length)`. -/
noncomputable def wrap (s : AtomsRec) (pbc : Bool × Bool × Bool) : AtomsRec :=
  { s with positions := s.positions.map fun p =>
      (if pbc.1 then wrapCoord s.cell.1 p.1 else p.1,
       if pbc.2.1 then wrapCoord s.cell.2.1 p.2.1 else p.2.1,
       if pbc.2.2 then wrapCoord s.cell.2.2 p.2.2 else p.2.2) }

/-- Euclidean distance between two position 3-vectors. -/
noncomputable def euclidDist (p q : ℝ × ℝ × ℝ) : ℝ :=
  Real.sqrt ((p.1 - q.1) ^ 2 + (p.2.1 - q.2.1) ^ 2 + (p.2.2 - q.2.2) ^ 2)

/-- Componentwise difference of 3-vectors. -/
def vsub (p q : ℝ × ℝ × ℝ) : ℝ × ℝ × ℝ :=
  (p.1 - q.1, p.2.1 - q.2.1, p.2.2 - q.2.2)

/-- Componentwise sum of 3-vectors. -/
def vadd (p q : ℝ × ℝ × ℝ) : ℝ × ℝ × ℝ :=
  (p.1 + q.1, p.2.1 + q.2.1, p.2.2 + q.2.2)

/-- Scalar multiple of a 3-vector. -/
def smul (a : ℝ) (p : ℝ × ℝ × ℝ) : ℝ × ℝ × ℝ :=
  (a * p.1, a * p.2.1, a * p.2.2)

/-- Embedding of `Atoms("CuCO", [(-dist*sin(0.65), dist*cos(0.65), 0),
(0, 0, 0), (dist*sin(0.65), dist*cos(0.65), 0)])` from cell
`alternative-starter` of the CuCO notebook: the freshly constructed object,
before `set_cell`, `wrap` and `set_calculator` are applied (a fresh
`ase.Atoms` has a zero cell and no periodic directions). -/
noncomputable def cucoRaw (dist : ℝ) : AtomsRec :=
  { cell := (0, 0, 0)
    pbc := (false, false, false)
    symbols := ["Cu", "C", "O"]
    positions :=
      [(-(dist * Real.sin 0.65), dist * Real.cos 0.65, 0),
       (0, 0, 0),
       (dist * Real.sin 0.65, dist * Real.cos 0.65, 0)]
    energy := none
    forces := none
    calcRef := none }

/-- One iteration of the CuCO generation loop: construct the three-atom
structure, `set_cell([10, 10, 10])`, `wrap(pbc=True)`, and attach the EMT
calculator. -/
noncomputable def cucoImage (dist : ℝ) : AtomsRec :=
  setCalculator (wrap (setCell (cucoRaw dist) (10, 10, 10)) (true, true, true))
    CalcKind.emt

/-- Embedding of `np.linspace(a, b, K)` (with the default inclusive
endpoint): the `K` evenly spaced samples `a + (b - a) * i / (K - 1)`. -/
noncomputable def linspace (a b : ℝ) (K : ℕ) : List ℝ :=
  (List.range K).map fun i : ℕ => a + (b - a) * (i : ℝ) / ((K : ℝ) - 1)

/-- The synthetic structure-generation loop shared by both notebooks: one
structure appended per bond length in `linspace a b K`, the per-length
construction being the loop body `build`. -/
noncomputable def genLoop (build : ℝ → AtomsRec) (a b : ℝ) (K : ℕ) :
    List AtomsRec :=
  (linspace a b K).map build

/-- Modelled from the spec: `trainer.predict` is external AMPtorch code; the
spec describes its output as "an in-memory prediction mapping keyed by
`"energy"`" with one predicted energy per input structure, so we model the
energy sequence as the image of the input list under an abstract
per-structure energy function `E`. -/
def predictEnergies (E : AtomsRec → ℝ) (imgs : List AtomsRec) : List ℝ :=
  imgs.map E

/-- Modelled from the spec: Python extended-slice semantics for the index
string `"::10"` passed to `ase.io.read` (external code), which the spec
describes as "read by index-slicing (e.g., every 10th entry)": keep the
head, then recurse after dropping the next `k - 1` entries, so exactly the
entries at indices `0, k, 2k, ...` are kept. -/
def sliceStep (k : ℕ) (xs : List AtomsRec) : List AtomsRec :=
  match xs with
  | [] => []
  | x :: rest => x :: sliceStep k (rest.drop (k - 1))
termination_by xs.length
decreasing_by simp [List.length_drop]; omega

/-- The dataset loader of cell `alternative-starter` of the GMP notebook:
`ase.io.read("./data/single_water_2D.traj", index="::10")`, i.e. every 10th
entry of the stored trajectory. -/
def readTraj (stored : List AtomsRec) : List AtomsRec :=
  sliceStep 10 stored

/-- Modelled from the spec: `ase.build.molecule("H2O", vacuum=10.0)` is
external ASE code; it returns the three-atom water record from ASE's `g2`
data (symbols O, H, H), centered in a cell leaving 10 Å of vacuum around
the molecule. -/
noncomputable def h2oMolecule : AtomsRec :=
  { cell := (20, 21.526478, 20.596309)
    pbc := (false, false, false)
    symbols := ["O", "H", "H"]
    positions :=
      [(10, 10.763239, 10.596309),
       (10, 11.526478, 10.000000),
       (10, 10.000000, 10.000000)]
    energy := none
    forces := none
    calcRef := none }

/-- Modelled from the spec: `atoms.set_distance(a0, a1, distance)` is
external ASE code (default `fix=0.5`); both endpoint atoms are moved
symmetrically along their connecting axis until they are `distance` apart,
all other data unchanged. -/
noncomputable def setDistance (s : AtomsRec) (a0 a1 : ℕ) (distance : ℝ) :
    AtomsRec :=
  match s.positions.get? a0, s.positions.get? a1 with
  | some p0, some p1 =>
      let D := vsub p1 p0
      let x := 1 - distance / euclidDist p1 p0
      let moved :=
        (s.positions.set a0 (vadd p0 (smul ((1 / 2) * x) D))).set a1
          (vsub p1 (smul ((1 / 2) * x) D))
      { s with positions := moved }
  | _, _ => s

/-- One iteration of the H2O generation loop of cell `chicken-slide`:
`molecule("H2O", vacuum=10.0)`, `set_cell([10, 10, 10])`,
`set_pbc([1, 1, 1])`, `set_distance(0, 2, dist)`. -/
noncomputable def h2oImage (dist : ℝ) : AtomsRec :=
  setDistance (setPbc (setCell h2oMolecule (10, 10, 10)) (true, true, true))
    0 2 dist

lemma zipWith_sum_eq_range_sum (f : ℚ → ℚ → ℚ) :
    ∀ T P : List ℚ, T.length = P.length →
      (List.zipWith f T P).sum =
        ((List.range T.length).map fun i => f (T.getD i 0) (P.getD i 0)).sum := by
  intro T
  induction T with
  | nil =>
      intro P h
      simp
  | cons t T ih =>
      intro P h
      cases P with
      | nil => simp at h
      | cons p P =>
          have hlen : T.length = P.length := by simpa using h
          simp only [List.zipWith_cons_cons, List.sum_cons, List.length_cons,
            List.range_succ_eq_map, List.map_cons, List.map_map]
          rw [ih P hlen]
          congr 1

lemma zipWith_length_left (f : ℚ → ℚ → ℚ) (T P : List ℚ)
    (h : T.length = P.length) : (List.zipWith f T P).length = T.length := by
  simp [List.length_zipWith, h]

lemma zipWith_sum_nonneg (f : ℚ → ℚ → ℚ) (hf : ∀ t p, 0 ≤ f t p) :
    ∀ T P : List ℚ, 0 ≤ (List.zipWith f T P).sum := by
  intro T
  induction T with
  | nil => intro P; simp
  | cons t T ih =>
      intro P
      cases P with
      | nil => simp
      | cons p P =>
          simp only [List.zipWith_cons_cons, List.sum_cons]
          have h1 := hf t p
          have h2 := ih P
          linarith

lemma zipWith_self_sum_zero (f : ℚ → ℚ → ℚ) (hf : ∀ t, f t t = 0) :
    ∀ T : List ℚ, (List.zipWith f T T).sum = 0 := by
  intro T
  induction T with
  | nil => simp
  | cons t T ih => simp [hf, ih]

lemma npMean_of_ne_nil (xs : List ℚ) (h : xs ≠ []) :
    npMean xs = some (xs.sum / xs.length) := by
  simp [npMean, h]

/-- C1: for true and predicted energy sequences of equal positive length,
the notebook's `np.mean((T - P) ** 2)` and `np.mean(np.abs(T - P))`
reductions agree with the specification's reference definitions, the mean of
`(T_i - P_i)^2` respectively `|T_i - P_i|` over all indices `i`. -/
theorem energy_mse_mae_match_reference (T P : List ℚ)
    (hlen : T.length = P.length) (hpos : 0 < T.length) :
    energyMSE T P = some (specMSE T P) ∧ energyMAE T P = some (specMAE T P) := by
  have hne : ∀ f : ℚ → ℚ → ℚ, List.zipWith f T P ≠ [] := by
    intro f hnil
    have := zipWith_length_left f T P hlen
    rw [hnil] at this
    simp at this
    omega
  constructor
  · rw [energyMSE, npMean_of_ne_nil _ (hne _),
      zipWith_sum_eq_range_sum _ T P hlen, zipWith_length_left _ T P hlen]
    rfl
  · rw [energyMAE, npMean_of_ne_nil _ (hne _),
      zipWith_sum_eq_range_sum _ T P hlen, zipWith_length_left _ T P hlen]
    rfl

/-- Witness for C1 at the concrete input `T = [1, 2]`, `P = [3, 5]`. -/
theorem energy_mse_mae_match_reference_check :
    ([1, 2] : List ℚ).length = ([3, 5] : List ℚ).length ∧
      0 < ([1, 2] : List ℚ).length ∧
      (energyMSE [1, 2] [3, 5] = some (specMSE [1, 2] [3, 5]) ∧
        energyMAE [1, 2] [3, 5] = some (specMAE [1, 2] [3, 5])) :=
  ⟨rfl, by decide, energy_mse_mae_match_reference [1, 2] [3, 5] rfl (by decide)⟩

/-- C2: when the predicted energies equal the true energies elementwise,
every value the MSE reduction computes is `0`, and likewise for MAE (on the
empty pair nothing is computed: see the C4 theorem). -/
theorem energy_error_zero_on_equal (T P : List ℚ) (hPT : P = T) :
    (T ≠ [] → energyMSE T P = some 0 ∧ energyMAE T P = some 0) ∧
      (∀ m, energyMSE T P = some m → m = 0) ∧
      (∀ m, energyMAE T P = some m → m = 0) := by
  subst hPT
  refine ⟨?_, ?_, ?_⟩
  · intro hT
    have hzip : ∀ f : ℚ → ℚ → ℚ, List.zipWith f P P ≠ [] := by
      intro f hnil
      have := congrArg List.length hnil
      simp [List.length_zipWith] at this
      exact hT this
    constructor
    · rw [energyMSE, npMean_of_ne_nil _ (hzip _),
        zipWith_self_sum_zero (fun t p => (t - p) ^ 2) (by intro t; ring) P]
      simp
    · rw [energyMAE, npMean_of_ne_nil _ (hzip _),
        zipWith_self_sum_zero (fun t p => |t - p|) (by intro t; simp) P]
      simp
  · intro m hm
    rw [energyMSE] at hm
    rcases eq_or_ne (List.zipWith (fun t p => (t - p) ^ 2) P P) [] with h | h
    · rw [h] at hm; simp [npMean] at hm
    · rw [npMean_of_ne_nil _ h] at hm
      have hz := zipWith_self_sum_zero (fun t p => (t - p) ^ 2) (by intro t; ring) P
      rw [hz] at hm
      simpa using hm.symm
  · intro m hm
    rw [energyMAE] at hm
    rcases eq_or_ne (List.zipWith (fun t p => |t - p|) P P) [] with h | h
    · rw [h] at hm; simp [npMean] at hm
    · rw [npMean_of_ne_nil _ h] at hm
      have hz := zipWith_self_sum_zero (fun t p => |t - p|) (by intro t; simp) P
      rw [hz] at hm
      simpa using hm.symm

/-- Witness for C2 at the concrete input `T = P = [1, 2]`. -/
theorem energy_error_zero_on_equal_check :
    ([1, 2] : List ℚ) = [1, 2] ∧ ([1, 2] : List ℚ) ≠ [] ∧
      (energyMSE [1, 2] [1, 2] = some 0 ∧ energyMAE [1, 2] [1, 2] = some 0) :=
  ⟨rfl, by simp, (energy_error_zero_on_equal [1, 2] [1, 2] rfl).1 (by simp)⟩

/-- C3: for equal-length energy sequences, every value the MSE reduction
computes is non-negative, and likewise for MAE. -/
theorem energy_error_nonneg (T P : List ℚ) (hlen : T.length = P.length) :
    (∀ m, energyMSE T P = some m → 0 ≤ m) ∧
      (∀ m, energyMAE T P = some m → 0 ≤ m) := by
  constructor
  · intro m hm
    rw [energyMSE] at hm
    rcases eq_or_ne (List.zipWith (fun t p => (t - p) ^ 2) T P) [] with h | h
    · rw [h] at hm; simp [npMean] at hm
    · rw [npMean_of_ne_nil _ h] at hm
      have hs := zipWith_sum_nonneg (fun t p => (t - p) ^ 2)
        (by intro t p; positivity) T P
      have hm2 : m = _ := (Option.some_inj.mp hm).symm
      rw [hm2]
      exact div_nonneg hs (by positivity)
  · intro m hm
    rw [energyMAE] at hm
    rcases eq_or_ne (List.zipWith (fun t p => |t - p|) T P) [] with h | h
    · rw [h] at hm; simp [npMean] at hm
    · rw [npMean_of_ne_nil _ h] at hm
      have hs := zipWith_sum_nonneg (fun t p => |t - p|)
        (by intro t p; positivity) T P
      have hm2 : m = _ := (Option.some_inj.mp hm).symm
      rw [hm2]
      exact div_nonneg hs (by positivity)

/-- Witness for C3 at the concrete input `T = [1, 2]`, `P = [3, 5]`. -/
theorem energy_error_nonneg_check :
    ([1, 2] : List ℚ).length = ([3, 5] : List ℚ).length ∧
      energyMSE [1, 2] [3, 5] = some (13 / 2) ∧ (0 : ℚ) ≤ 13 / 2 :=
  ⟨rfl, by norm_num [energyMSE, npMean],
    (energy_error_nonneg [1, 2] [3, 5] rfl).1 (13 / 2)
      (by norm_num [energyMSE, npMean])⟩

lemma sliceStep_length_ten :
    ∀ xs : List AtomsRec, (sliceStep 10 xs).length = (xs.length + 9) / 10 := by
  intro xs
  induction xs using sliceStep.induct 10 with
  | case1 => simp [sliceStep]
  | case2 x rest ih =>
      rw [sliceStep]
      simp only [List.length_cons, ih, List.length_drop]
      omega

lemma sliceStep_get_ten :
    ∀ (xs : List AtomsRec) (i : ℕ),
      (sliceStep 10 xs).get? i = xs.get? (10 * i) := by
  intro xs
  induction xs using sliceStep.induct 10 with
  | case1 => intro i; simp [sliceStep]
  | case2 x rest ih =>
      intro i
      rw [sliceStep]
      cases i with
      | zero => simp
      | succ j =>
          have h10 : 10 * (j + 1) = (10 - 1 + 10 * j) + 1 := by omega
          rw [h10, List.get?_cons_succ, List.get?_cons_succ, ih j,
            List.get?_drop]

lemma sliceStep_subset (k : ℕ) :
    ∀ xs : List AtomsRec, ∀ s ∈ sliceStep k xs, s ∈ xs := by
  intro xs
  induction xs using sliceStep.induct k with
  | case1 => intro s hs; simp [sliceStep] at hs
  | case2 x rest ih =>
      intro s hs
      rw [sliceStep] at hs
      rcases List.mem_cons.mp hs with h | h
      · exact h ▸ List.mem_cons_self x rest
      · exact List.mem_cons_of_mem x (List.drop_subset _ rest (ih s h))

/-- C5: the generation loop appends exactly one structure per bond length in
`linspace a b K`, so it produces exactly `K` structures, and the prediction
sequence obtained from them (one energy per structure) has exactly length
`K`; each entry is a single real number, so no undefined entries arise. -/
theorem gen_loop_prediction_length (build : ℝ → AtomsRec) (E : AtomsRec → ℝ)
    (a b : ℝ) (K : ℕ) (hK : 2 ≤ K) (hab : a < b) :
    (genLoop build a b K).length = K ∧
      (predictEnergies E (genLoop build a b K)).length = K := by
  have h1 : (genLoop build a b K).length = K := by
    rw [genLoop, List.length_map, linspace, List.length_map, List.length_range]
  exact ⟨h1, by rw [predictEnergies, List.length_map, h1]⟩

/-- Witness for C5 at the CuCO notebook's concrete loop:
`np.linspace(2, 5, 100)` with the CuCO loop body. -/
theorem gen_loop_prediction_length_check :
    2 ≤ 100 ∧ (2 : ℝ) < 5 ∧
      ((genLoop cucoImage 2 5 100).length = 100 ∧
        (predictEnergies (fun _ => 0) (genLoop cucoImage 2 5 100)).length =
          100) :=
  ⟨by norm_num, by norm_num,
    gen_loop_prediction_length cucoImage (fun _ => 0) 2 5 100 (by norm_num)
      (by norm_num)⟩

/-- C6: reading the stored trajectory with index `"::10"` returns exactly
`⌈N / 10⌉` structures (`(N + 9) / 10` in truncated natural division), and
the `i`-th returned structure is the stored entry at index `10 * i`. -/
theorem read_traj_every_tenth (stored : List AtomsRec) :
    (readTraj stored).length = (stored.length + 9) / 10 ∧
      ∀ i : ℕ, (readTraj stored).get? i = stored.get? (10 * i) :=
  ⟨sliceStep_length_ten stored, sliceStep_get_ten stored⟩

/-- C7: every structure the workflow constructs satisfies the matching
atom-count invariant: the CuCO loop structures, the H2O loop structures,
and (given that the stored trajectory entries satisfy it, as external data)
every deserialized structure returned by the loader. -/
theorem atoms_count_invariant :
    (∀ dist : ℝ, wellFormed (cucoImage dist)) ∧
      (∀ dist : ℝ, wellFormed (h2oImage dist)) ∧
      ∀ stored : List AtomsRec, (∀ s ∈ stored, wellFormed s) →
        ∀ s ∈ readTraj stored, wellFormed s := by
  refine ⟨?_, ?_, ?_⟩
  · intro dist
    constructor
    · simp [cucoImage, cucoRaw, setCalculator, setCell, wrap]
    · intro F hF
      simp [cucoImage, cucoRaw, setCalculator, setCell, wrap] at hF
  · intro dist
    constructor
    · simp [h2oImage, setDistance, setPbc, setCell, h2oMolecule]
    · intro F hF
      simp [h2oImage, setDistance, setPbc, setCell, h2oMolecule] at hF
  · intro stored h s hs
    exact h s (sliceStep_subset 10 stored s hs)

/-- Witness for C7 at concrete inputs: the CuCO structure at bond length 2,
the H2O structure at bond length 1, and the loader on the empty trajectory. -/
theorem atoms_count_invariant_check :
    wellFormed (cucoImage 2) ∧ wellFormed (h2oImage 1) ∧
      ∀ s ∈ readTraj [], wellFormed s :=
  ⟨atoms_count_invariant.1 2, atoms_count_invariant.2.1 1,
    atoms_count_invariant.2.2 [] (by simp)⟩

/-- C8: attaching a calculator changes only the calculator reference, and
the lazy energy evaluation through it leaves the structure — in particular
its cell, periodic flags, symbols and positions — unchanged. -/
theorem set_calculator_frame (s : AtomsRec) (c : CalcKind)
    (sem : CalcKind → AtomsRec → ℝ) :
    (setCalculator s c).cell = s.cell ∧ (setCalculator s c).pbc = s.pbc ∧
      (setCalculator s c).symbols = s.symbols ∧
      (setCalculator s c).positions = s.positions ∧
      (getPotentialEnergy sem (setCalculator s c)).2 = setCalculator s c ∧
      (getPotentialEnergy sem (setCalculator s c)).2.positions =
        s.positions :=
  ⟨rfl, rfl, rfl, rfl, rfl, rfl⟩

lemma wrapCoord_eq_self (L c : ℝ) (hL : 0 < L) (h0 : 0 ≤ c) (h1 : c < L) :
    wrapCoord L c = c := by
  have hf : ⌊c / L⌋ = 0 := by
    rw [Int.floor_eq_zero_iff]
    exact ⟨div_nonneg h0 hL.le, (div_lt_one hL).mpr h1⟩
  simp [wrapCoord, hf]

lemma wrapCoord_of_neg (L c : ℝ) (hL : 0 < L) (h0 : -L ≤ c) (h1 : c < 0) :
    wrapCoord L c = c + L := by
  have hf : ⌊c / L⌋ = -1 := by
    rw [Int.floor_eq_iff]
    constructor
    · push_cast
      rw [le_div_iff₀ hL]
      linarith
    · push_cast
      rw [div_lt_iff₀ hL]
      linarith
  rw [wrapCoord, hf]
  push_cast
  ring

lemma wrapCoord_ten_zero : wrapCoord 10 0 = 0 := by
  simp [wrapCoord]

lemma sin65_pos : 0 < Real.sin 0.65 := by
  apply Real.sin_pos_of_pos_of_lt_pi
  · norm_num
  · have := Real.pi_gt_three
    linarith

lemma sin65_le_one : Real.sin 0.65 ≤ 1 := Real.sin_le_one _

lemma cos65_pos : 0 < Real.cos 0.65 := by
  apply Real.cos_pos_of_mem_Ioo
  constructor
  · have := Real.pi_gt_three
    linarith
  · have := Real.pi_gt_three
    linarith

lemma cos65_le_one : Real.cos 0.65 ≤ 1 := Real.cos_le_one _

lemma cucoImage_positions (dist : ℝ) :
    (cucoImage dist).positions =
      [(wrapCoord 10 (-(dist * Real.sin 0.65)),
        wrapCoord 10 (dist * Real.cos 0.65), wrapCoord 10 0),
       (wrapCoord 10 0, wrapCoord 10 0, wrapCoord 10 0),
       (wrapCoord 10 (dist * Real.sin 0.65),
        wrapCoord 10 (dist * Real.cos 0.65), wrapCoord 10 0)] := by
  simp [cucoImage, setCalculator, wrap, setCell, cucoRaw]

/-- C10 counterexample: the claim overlooks the `image.wrap(pbc=True)` call
in the generation loop; at bond length `dist = 2` the produced structure has
atom 0 wrapped to `x = 10 - 2 sin 0.65`, not at the claimed position
`(-2 sin 0.65, 2 cos 0.65, 0)`. -/
theorem cuco_mirror_counterexample :
    (cucoImage 2).positions.get? 0 ≠
      some (-(2 * Real.sin 0.65), 2 * Real.cos 0.65, 0) := by
  have hs0 := sin65_pos
  have hs1 := sin65_le_one
  have hw : wrapCoord 10 (-(2 * Real.sin 0.65)) =
      -(2 * Real.sin 0.65) + 10 := by
    apply wrapCoord_of_neg 10 _ (by norm_num) (by nlinarith) (by nlinarith)
  intro h
  rw [cucoImage_positions] at h
  simp only [List.get?_cons_zero, Option.some.injEq, Prod.mk.injEq] at h
  obtain ⟨hx, -⟩ := h
  rw [hw] at hx
  linarith

/-- C10 amended: for every bond length `dist` in the loop's range `[2, 5]`,
the structure as constructed (before wrapping) is mirror-symmetric exactly
as claimed, with both outer atoms at Euclidean distance `dist` from atom 1
at the origin; the generation loop then wraps positions into the periodic
`10 × 10 × 10` cell, which translates atom 0 by `+10` in `x`, so the
produced structure has atom 0 at `(10 - dist sin 0.65, dist cos 0.65, 0)`
while atoms 1 and 2 keep the claimed positions. -/
theorem cuco_mirror_amended (dist : ℝ) (h2 : 2 ≤ dist) (h5 : dist ≤ 5) :
    (cucoRaw dist).positions =
        [(-(dist * Real.sin 0.65), dist * Real.cos 0.65, 0), (0, 0, 0),
          (dist * Real.sin 0.65, dist * Real.cos 0.65, 0)] ∧
      euclidDist (-(dist * Real.sin 0.65), dist * Real.cos 0.65, 0)
          (0, 0, 0) = dist ∧
      euclidDist (dist * Real.sin 0.65, dist * Real.cos 0.65, 0)
          (0, 0, 0) = dist ∧
      (cucoImage dist).positions =
        [(10 - dist * Real.sin 0.65, dist * Real.cos 0.65, 0), (0, 0, 0),
          (dist * Real.sin 0.65, dist * Real.cos 0.65, 0)] := by
  have hs0 := sin65_pos
  have hs1 := sin65_le_one
  have hc0 := cos65_pos
  have hc1 := cos65_le_one
  have hsc := Real.sin_sq_add_cos_sq 0.65
  refine ⟨rfl, ?_, ?_, ?_⟩
  · have key : (-(dist * Real.sin 0.65) - 0) ^ 2 +
        (dist * Real.cos 0.65 - 0) ^ 2 + ((0 : ℝ) - 0) ^ 2 = dist ^ 2 := by
      linear_combination dist ^ 2 * hsc
    rw [euclidDist]
    rw [key]
    exact Real.sqrt_sq (by linarith)
  · have key : (dist * Real.sin 0.65 - 0) ^ 2 +
        (dist * Real.cos 0.65 - 0) ^ 2 + ((0 : ℝ) - 0) ^ 2 = dist ^ 2 := by
      linear_combination dist ^ 2 * hsc
    rw [euclidDist]
    rw [key]
    exact Real.sqrt_sq (by linarith)
  · have hw0 : wrapCoord 10 (-(dist * Real.sin 0.65)) =
        10 - dist * Real.sin 0.65 := by
      rw [wrapCoord_of_neg 10 _ (by norm_num) (by nlinarith) (by nlinarith)]
      ring
    have hwy : wrapCoord 10 (dist * Real.cos 0.65) = dist * Real.cos 0.65 :=
      wrapCoord_eq_self 10 _ (by norm_num) (by nlinarith) (by nlinarith)
    have hw2 : wrapCoord 10 (dist * Real.sin 0.65) = dist * Real.sin 0.65 :=
      wrapCoord_eq_self 10 _ (by norm_num) (by nlinarith) (by nlinarith)
    rw [cucoImage_positions, hw0, hwy, hw2, wrapCoord_ten_zero]

/-- Witness for the amended C10 at the loop's first bond length `dist = 2`. -/
theorem cuco_mirror_amended_check :
    (2 : ℝ) ≤ 2 ∧ (2 : ℝ) ≤ 5 ∧
      euclidDist (-(2 * Real.sin 0.65), 2 * Real.cos 0.65, 0) (0, 0, 0) = 2 :=
  ⟨le_refl 2, by norm_num, (cuco_mirror_amended 2 (le_refl 2) (by norm_num)).2.1⟩

/-- C4: on the empty structure collection both reductions are explicitly
undefined (`none`, matching numpy's NaN-with-warning on an empty mean); in
particular neither silently produces the value `0`. -/
theorem energy_error_empty_undefined :
    energyMSE [] [] = none ∧ energyMAE [] [] = none ∧
      energyMSE [] [] ≠ some 0 ∧ energyMAE [] [] ≠ some 0 := by
  refine ⟨rfl, rfl, ?_, ?_⟩ <;> decide

end NNFF
